import Mathlib

/-!
Shallow embedding of the `Common` components of the exchange matching engine
(`lf_queue.h`, `mem_pool.h`, `latency_tracker.h`, `nanosecond_timer.h`,
`performance_dashboard.h`), together with theorems settling the frozen claims
about them.

Machine integers: the positions, counters and sums in these classes are
`std::size_t` / `uint64_t`.  Counter fields that the code only ever increments
are modelled as `Nat` with an explicit `% 2 ^ 64` where the code's `uint64_t`
addition could wrap; index arithmetic (`& (N - 1)`) is embedded with `&&&`,
exactly as written in the source.
-/

/-- Wraparound modulus of the 64-bit unsigned counters (`uint64_t`, `size_t`). -/
def U64 : Nat := 2 ^ 64

/-! ## Common::LFQueue (lf_queue.h)

The queue owns `store_` (a vector of `num_elems` default-initialised slots,
`num_elems` asserted to be a power of two) and two atomic counters
`write_pos_` and `read_pos_`, both starting at 0.  Slot accesses in the source
are by *raw* position (`store_[current_write]`, `store_[current_read]`), and
`updateWriteIndex` / `updateReadIndex` advance the counters by plain
`fetch_add(1)` with no masking; only the full test in `getNextToWriteTo` and
`size()` mask with `store_.size() - 1`.  The embedding keeps exactly that
asymmetry.  Positions are `size_t`; all runs considered here keep them far
below `2 ^ 64`, where `size_t` arithmetic agrees with `Nat`. -/

structure LFQueue (α : Type) where
  store : List α
  write_pos : Nat
  read_pos : Nat
deriving Repr, DecidableEq

/-- The constructor `LFQueue(num_elems)`: `store_(num_elems, T())`,
both positions 0.  (The constructor also `ASSERT`s that `num_elems` is a
power of two; that precondition appears as a hypothesis of the theorems.) -/
def LFQueue.new (α : Type) (num_elems : Nat) (init : α) : LFQueue α :=
  ⟨List.replicate num_elems init, 0, 0⟩

/-- `getNextToWriteTo()`: loads `current_write = write_pos_`, computes
`next_write = (current_write + 1) & (store_.size() - 1)`, returns `nullptr`
when `next_write == read_pos_` and otherwise the pointer
`&store_[current_write]`.  The embedding returns the slot *index* the pointer
addresses (`some current_write`), or `none` for `nullptr`; note the source
does not mask `current_write` itself. -/
def LFQueue.getNextToWriteTo (q : LFQueue α) : Option Nat :=
  let current_write := q.write_pos
  let next_write := (current_write + 1) &&& (q.store.length - 1)
  if next_write = q.read_pos then none else some current_write

/-- `updateWriteIndex()`: `write_pos_.fetch_add(1)` — no masking. -/
def LFQueue.updateWriteIndex (q : LFQueue α) : LFQueue α :=
  { q with write_pos := q.write_pos + 1 }

/-- `getNextToRead()`: returns `nullptr` when `read_pos_ == write_pos_`,
otherwise the pointer `&store_[current_read]` (again at the raw, unmasked
position); embedded as the slot index. -/
def LFQueue.getNextToRead (q : LFQueue α) : Option Nat :=
  if q.read_pos = q.write_pos then none else some q.read_pos

/-- `updateReadIndex()`: returns `false` when empty, otherwise advances
`read_pos_` by a plain `fetch_add(1)` and returns `true`. -/
def LFQueue.updateReadIndex (q : LFQueue α) : LFQueue α × Bool :=
  if q.read_pos = q.write_pos then (q, false)
  else ({ q with read_pos := q.read_pos + 1 }, true)

/-- `size()`: `(write_pos_ - read_pos_) & (store_.size() - 1)`.  On every
state reachable from a fresh queue `read_pos_ ≤ write_pos_`, so the `size_t`
subtraction agrees with truncated `Nat` subtraction. -/
def LFQueue.size (q : LFQueue α) : Nat :=
  (q.write_pos - q.read_pos) &&& (q.store.length - 1)

/-- One producer step of the SPSC protocol: `getNextToWriteTo()`, write `v`
through the returned pointer, `updateWriteIndex()`.  The store write is
`List.set`, which leaves the list unchanged when the slot index falls outside
the store — the situation in which the C++ write `store_[current_write] = v`
is out of bounds. -/
def LFQueue.tryPush (q : LFQueue α) (v : α) : Option (LFQueue α) :=
  match q.getNextToWriteTo with
  | none => none
  | some i => some ((⟨q.store.set i v, q.write_pos, q.read_pos⟩ : LFQueue α).updateWriteIndex)

/-- One consumer step: `getNextToRead()`, read the value through the returned
pointer, `updateReadIndex()`.  The value component is `none` exactly when the
slot index falls outside the store — where the C++ read `*ptr` is out of
bounds. -/
def LFQueue.tryPop (q : LFQueue α) : Option (LFQueue α × Option α) :=
  match q.getNextToRead with
  | none => none
  | some i => some ((q.updateReadIndex).1, q.store.get? i)

/-- Producer pushes `v`, then consumer pops once: one transfer round of the
alternating SPSC scenario.  (On the scenarios below every push and pop finds a
slot, so the fall-through branches are never taken.) -/
def LFQueue.transferRound (q : LFQueue α) (v : α) : LFQueue α :=
  match q.tryPush v with
  | none => q
  | some q2 =>
    match q2.tryPop with
    | none => q2
    | some p => p.1

/-- Alternating SPSC run: transfer the values `vs` one at a time through `q`. -/
def LFQueue.transferAll (q : LFQueue α) (vs : List α) : LFQueue α :=
  vs.foldl LFQueue.transferRound q

/-- Iterated `updateWriteIndex` (the producer performing `n` successful writes,
each preceded by a successful `getNextToWriteTo`). -/
def LFQueue.writeN (q : LFQueue α) : Nat → LFQueue α
  | 0 => q
  | n + 1 => (q.writeN n).updateWriteIndex

/-! ## Common::MemPool (mem_pool.h)

The pool owns `store_`, a vector of `num_elems` blocks (asserted power of two),
each with an atomic `is_free_` flag initialised `true`, plus the atomic hint
`next_free_ = 0`.  `allocate` retries at most 1000 times: it loads
`current = next_free_`, computes `next = (current + 1) & (size - 1)`, and
tries `is_free_.exchange(false)` on slot `current`; on success it stores
`next` into `next_free_` and returns `&store_[current].object_`, on failure it
loops — `next_free_` is *not* advanced on failure.  The embedding tracks the
free flags and the hint; a returned block is identified by its slot index. -/

structure MemPool where
  is_free : List Bool
  next_free : Nat
deriving Repr, DecidableEq

/-- The constructor `MemPool(num_elems)`: every block free, hint 0. -/
def MemPool.new (num_elems : Nat) : MemPool :=
  ⟨List.replicate num_elems true, 0⟩

/-- The retry loop of `allocate` (`for retry = 0; retry < 1000; ++retry`),
with the remaining retry budget as fuel.  `exchange(false)` succeeds exactly
when the flag was `true`. -/
def MemPool.allocateLoop : Nat → MemPool → Option (MemPool × Nat)
  | 0, _ => none
  | retries + 1, p =>
    let current := p.next_free
    let next := (current + 1) &&& (p.is_free.length - 1)
    if p.is_free.getD current false then
      some (⟨p.is_free.set current false, next⟩, current)
    else
      MemPool.allocateLoop retries p

/-- `allocate(...)`: run the retry loop with its budget of 1000 attempts;
`none` models the `return nullptr; // Pool exhausted` fall-through. -/
def MemPool.allocate (p : MemPool) : Option (MemPool × Nat) :=
  MemPool.allocateLoop 1000 p

/-- `deallocate(elem)`: the source recovers the block index from the pointer
and stores `true` into that block's `is_free_`.  The embedding takes the index
directly. -/
def MemPool.deallocate (p : MemPool) (elem_index : Nat) : MemPool :=
  ⟨p.is_free.set elem_index true, p.next_free⟩

/-- Perform `n` successive `allocate` calls, collecting each call's result
(the slot index, or `none` for `nullptr`). -/
def MemPool.allocN : Nat → MemPool → MemPool × List (Option Nat)
  | 0, p => (p, [])
  | n + 1, p =>
    match p.allocate with
    | none =>
      let r := MemPool.allocN n p
      (r.1, none :: r.2)
    | some (p2, i) =>
      let r := MemPool.allocN n p2
      (r.1, some i :: r.2)

/-! ## Common::LatencyTracker (latency_tracker.h)

`NUM_BUCKETS = 1000` buckets, bucket `b` covering `[1000*b, 1000*b + 999]` ns
(the last bucket also absorbs everything above).  Each bucket carries
`count_`, `sum_` (both `uint64_t`, starting 0, updated by `fetch_add` — so
modulo `2 ^ 64`), `min_` (starting `UINT64_MAX`) and `max_` (starting 0),
updated by compare-exchange loops whose sequential effect is
`min_ = min(min_, v)` / `max_ = max(max_, v)`.  The tracker also keeps global
`total_operations_` and `total_latency_` counters. -/

structure LatencyBucket where
  count : Nat
  sum : Nat
  min_ns : Nat
  max_ns : Nat
deriving Repr, DecidableEq

/-- Number of histogram buckets (`static constexpr size_t NUM_BUCKETS = 1000`). -/
def NUM_BUCKETS : Nat := 1000

/-- A bucket's initial state: `count_ = 0`, `sum_ = 0`, `min_ = UINT64_MAX`,
`max_ = 0`. -/
def LatencyBucket.init : LatencyBucket :=
  ⟨0, 0, U64 - 1, 0⟩

/-- `LatencyBucket::record_latency`: `count_ += 1`, `sum_ += latency_ns`
(`uint64_t` adds, hence `% 2 ^ 64`), then the CAS loops lower `min_` when
`latency_ns < min_` and raise `max_` when `latency_ns > max_`. -/
def LatencyBucket.record (b : LatencyBucket) (latency_ns : Nat) : LatencyBucket :=
  { count := (b.count + 1) % U64
    sum := (b.sum + latency_ns) % U64
    min_ns := if latency_ns < b.min_ns then latency_ns else b.min_ns
    max_ns := if latency_ns > b.max_ns then latency_ns else b.max_ns }

structure LatencyTracker where
  buckets : List LatencyBucket
  total_operations : Nat
  total_latency : Nat
deriving Repr, DecidableEq

/-- A freshly constructed tracker: 1000 initial buckets, zero totals. -/
def LatencyTracker.new : LatencyTracker :=
  ⟨List.replicate NUM_BUCKETS LatencyBucket.init, 0, 0⟩

/-- The bucket index chosen by `record_latency`:
`min(latency_ns / 1000, NUM_BUCKETS - 1)`. -/
def bucketIdx (latency_ns : Nat) : Nat :=
  min (latency_ns / 1000) (NUM_BUCKETS - 1)

/-- `LatencyTracker::record_latency`: route the value to its bucket, then
`total_operations_ += 1` and `total_latency_ += latency_ns` (`uint64_t`). -/
def LatencyTracker.record_latency (t : LatencyTracker) (latency_ns : Nat) : LatencyTracker :=
  let b := bucketIdx latency_ns
  { buckets := t.buckets.set b ((t.buckets.getD b LatencyBucket.init).record latency_ns)
    total_operations := (t.total_operations + 1) % U64
    total_latency := (t.total_latency + latency_ns) % U64 }

/-- `get_total_operations()`. -/
def LatencyTracker.get_total_operations (t : LatencyTracker) : Nat :=
  t.total_operations

/-- `get_average_latency()`: `ops > 0 ? total / ops : 0` (integer division). -/
def LatencyTracker.get_average_latency (t : LatencyTracker) : Nat :=
  if t.total_operations > 0 then t.total_latency / t.total_operations else 0

/-- `get_min_latency()`: fold over the buckets, taking each bucket's `min_`
into account only when its `count_ > 0`; report 0 when the accumulator is
still `UINT64_MAX` at the end. -/
def LatencyTracker.get_min_latency (t : LatencyTracker) : Nat :=
  let m := t.buckets.foldl
    (fun acc b => if b.count > 0 then min acc b.min_ns else acc) (U64 - 1)
  if m = U64 - 1 then 0 else m

/-- `get_max_latency()`: fold over the buckets, taking each bucket's `max_`
into account only when its `count_ > 0`. -/
def LatencyTracker.get_max_latency (t : LatencyTracker) : Nat :=
  t.buckets.foldl (fun acc b => if b.count > 0 then max acc b.max_ns else acc) 0

/-- The bucket walk of `get_percentile_latency`: starting at bucket index `i`
with `current_ops` already accumulated, add each bucket's `count_` and return
`i * 1000` at the first bucket where `current_ops >= target_op`; if the walk
exhausts the buckets, return `(NUM_BUCKETS - 1) * 1000`. -/
def percentileWalk : List LatencyBucket → Nat → Nat → Nat → Nat
  | [], _, _, _ => (NUM_BUCKETS - 1) * 1000
  | b :: rest, i, current_ops, target_op =>
    let current := current_ops + b.count
    if target_op ≤ current then i * 1000
    else percentileWalk rest (i + 1) current target_op

/-- `get_percentile_latency(percentile)`: 0 when `total_operations_ == 0`,
otherwise `target_op = (uint64_t)(total_ops * percentile / 100.0)` followed by
the ascending bucket walk.  The `double` argument and intermediate product are
modelled in `ℚ`; the truncating cast is `Rat.floor` followed by `Int.toNat`.
(`double` rounding is a monotone function of the exact value and is exact at
every concrete instance below, so the claims settled against this model carry
over.) -/
def LatencyTracker.get_percentile_latency (t : LatencyTracker) (percentile : ℚ) : Nat :=
  if t.total_operations = 0 then 0
  else
    let target_op := (((t.total_operations : ℚ) * percentile) / 100).floor.toNat
    percentileWalk t.buckets 0 0 target_op

/-- `reset()`: every bucket back to its initial state, totals back to 0. -/
def LatencyTracker.reset (t : LatencyTracker) : LatencyTracker :=
  ⟨t.buckets.map (fun _ => LatencyBucket.init), 0, 0⟩

/-- Record the values `vs` in order (`v₁` first). -/
def LatencyTracker.recordAll (t : LatencyTracker) (vs : List Nat) : LatencyTracker :=
  vs.foldl LatencyTracker.record_latency t

/-- Spec-side restatement of the percentile walk, used to check the claim's
description against the code: the cumulative count of buckets `0..i`. -/
def bucketCumCount (bs : List LatencyBucket) (i : Nat) : Nat :=
  ((bs.take (i + 1)).map (fun b => b.count)).sum

/-- Spec-side percentile, following the claim's words: 0 on an empty
histogram; otherwise `1000 ·` the first bucket index whose cumulative count
reaches `target = ⌊total_ops · p / 100⌋`, and `(NUM_BUCKETS - 1) * 1000` when
no bucket reaches it. -/
def percentileSpec (t : LatencyTracker) (percentile : ℚ) : Nat :=
  if t.total_operations = 0 then 0
  else
    let target_op := (((t.total_operations : ℚ) * percentile) / 100).floor.toNat
    match (List.range t.buckets.length).find?
        (fun i => decide (target_op ≤ bucketCumCount t.buckets i)) with
    | some i => i * 1000
    | none => (NUM_BUCKETS - 1) * 1000

/-- Closed form of the bucket at index `b` after recording the values `vs` on
a fresh tracker: its count is the number of values routed to `b`, its sum
their total (both modulo `2 ^ 64`), its min/max the folds the CAS loops
compute over them in arrival order. -/
def bucketOf (vs : List Nat) (b : Nat) : LatencyBucket :=
  { count := (vs.countP (fun v => bucketIdx v = b)) % U64
    sum := ((vs.filter (fun v => bucketIdx v = b)).sum) % U64
    min_ns := (vs.filter (fun v => bucketIdx v = b)).foldl
      (fun m v => if v < m then v else m) (U64 - 1)
    max_ns := (vs.filter (fun v => bucketIdx v = b)).foldl
      (fun m v => if v > m then v else m) 0 }

/-! ## Common::NanosecondTimer (nanosecond_timer.h)

Static state: `tsc_frequency_ns_` (an `std::atomic<double>`, initially 0.0)
and `calibrated_` (initially `false`).  `calibrate()` returns early when
already calibrated; otherwise it samples the TSC and the wall clock around a
100 ms sleep and *unconditionally* publishes
`frequency = tsc_duration / wall_duration_ns` and `calibrated_ = true` — the
source contains no check of either delta and no retry.  The two observed
deltas are inputs of the embedding (the code reads them from `rdtsc()` /
`high_resolution_clock`): the TSC delta is a `uint64_t` difference, the wall
delta a signed nanosecond count.  The `double` quotient is modelled in `ℚ`,
which is exact at the deltas the claims exercise (in particular a zero TSC
delta gives exactly 0.0 in both). -/

structure TimerState where
  tsc_frequency_ns : ℚ
  calibrated : Bool
deriving Repr, DecidableEq

/-- The initial static state: `tsc_frequency_ns_{0.0}`, `calibrated_{false}`. -/
def TimerState.init : TimerState :=
  ⟨0, false⟩

/-- `NanosecondTimer::calibrate()` as a function of the observed deltas. -/
def NanosecondTimer.calibrate (st : TimerState) (tsc_duration : Nat)
    (wall_duration_ns : Int) : TimerState :=
  if st.calibrated then st
  else ⟨(tsc_duration : ℚ) / (wall_duration_ns : ℚ), true⟩

/-! ## Common::PerformanceDashboard (performance_dashboard.h)

Control state relevant to start/stop: the `running_` flag and the
`reporter_thread_` member.  `start()` stores `true` into `running_` and then
move-assigns a freshly spawned `std::thread` into `reporter_thread_`; per the
C++ standard, move-assignment to a `std::thread` that is still joinable calls
`std::terminate()`.  `stop()` stores `false` and joins the thread when it is
joinable (after which it is no longer joinable).  The embedding tracks
`running_` and whether `reporter_thread_` is joinable; `start` yields either
the successor state or `terminated`. -/

structure DashboardState where
  running : Bool
  reporter_joinable : Bool
deriving Repr, DecidableEq

/-- Outcome of `PerformanceDashboard::start()`. -/
inductive StartResult where
  | ok (st : DashboardState)
  | terminated
deriving Repr, DecidableEq

/-- A freshly constructed dashboard: not running, no reporter thread. -/
def DashboardState.init : DashboardState :=
  ⟨false, false⟩

/-- `start()`: `running_ = true`, then `reporter_thread_ = std::thread(...)`.
When the previous reporter thread is still joinable the move assignment calls
`std::terminate()`; otherwise the dashboard is left running with a joinable
reporter thread. -/
def PerformanceDashboard.start (st : DashboardState) : StartResult :=
  if st.reporter_joinable then StartResult.terminated
  else StartResult.ok ⟨true, true⟩

/-- `stop()`: `running_ = false`, then join the reporter thread when it is
joinable.  Either way the post-state is stopped with no joinable thread. -/
def PerformanceDashboard.stop (st : DashboardState) : DashboardState :=
  ⟨false, false⟩

/-! ## Theorems -/

/-- C1 — claimed SPSC ring FIFO for every `n`, including `n > N`.  The code
violates the claim when the positions wrap past the capacity: the store is
indexed by the *raw* write/read counters, which `updateWriteIndex` /
`updateReadIndex` advance without masking.  After an alternating transfer of
8 values through a queue of capacity `N = 8`, `getNextToWriteTo` offers the
slot `&store_[8]` — one past the end of the 8-element store — so the push of
the 9th value is an out-of-bounds write (in the embedding, a write that never
lands: the store is unchanged and the value is lost), and the subsequent
`getNextToRead` addresses `&store_[8]` as well. -/
theorem c1_fifo_wrap_out_of_bounds :
    (LFQueue.transferAll (LFQueue.new Nat 8 0) [1, 2, 3, 4, 5, 6, 7, 8]).getNextToWriteTo
      = some 8 ∧
    (LFQueue.transferAll (LFQueue.new Nat 8 0) [1, 2, 3, 4, 5, 6, 7, 8]).store.length = 8 ∧
    ((LFQueue.transferAll (LFQueue.new Nat 8 0) [1, 2, 3, 4, 5, 6, 7, 8]).tryPush 9).map
        (fun q => q.store) = some [1, 2, 3, 4, 5, 6, 7, 8] ∧
    ((LFQueue.transferAll (LFQueue.new Nat 8 0) [1, 2, 3, 4, 5, 6, 7, 8]).tryPush 9).map
        (fun q => q.getNextToRead) = some (some 8) := by
  decide

/-- C2 — claimed that every store access is masked by `N - 1` and hence in
bounds.  The code masks only the full test: the slot pointer itself is
`&store_[current_write]` at the raw position.  On a queue of capacity
`N = 2`, after two one-element transfers (write and read positions both at 2),
`getNextToWriteTo` returns the pointer `&store_[2]`, outside the 2-element
store. -/
theorem c2_slot_access_unmasked :
    (LFQueue.transferAll (LFQueue.new Nat 2 0) [1, 2]).getNextToWriteTo = some 2 ∧
    ¬ 2 < (LFQueue.transferAll (LFQueue.new Nat 2 0) [1, 2]).store.length := by
  decide

set_option maxRecDepth 100000 in
/-- C3 — claimed that on failing to claim the slot at the hint, `allocate`
advances linearly, so that after `deallocate(P2)` the next `allocate` returns
`P2`.  In the code `next_free_` is only stored on a *successful* claim, so the
retry loop re-reads the same hint 1000 times and falls through to
`return nullptr; // Pool exhausted`.  On a pool of capacity 4: four allocates
return the distinct slots 0, 1, 2, 3; the fifth returns `nullptr` (correct —
pool full); but after `deallocate` of slot 1 the next `allocate` still returns
`nullptr` even though slot 1 is free, because the hint is stuck at the
occupied slot 0. -/
theorem c3_allocate_hint_stuck :
    (MemPool.allocN 4 (MemPool.new 4)).2 = [some 0, some 1, some 2, some 3] ∧
    (MemPool.allocN 4 (MemPool.new 4)).1.allocate = none ∧
    ((MemPool.allocN 4 (MemPool.new 4)).1.deallocate 1).is_free.getD 1 false = true ∧
    ((MemPool.allocN 4 (MemPool.new 4)).1.deallocate 1).allocate = none := by
  decide

/-- C8 counterexample — `calibrate()` on the uncalibrated initial state with
an observed TSC delta of 0 (and a normal 100 ms wall-clock delta) sets the
calibrated flag while publishing `tsc_frequency_ns_ = 0`: the flag is set
with a zero divisor, refuting the claim that a non-positive cycle delta is
retried rather than published. -/
theorem c8_zero_frequency_published :
    (NanosecondTimer.calibrate TimerState.init 0 100000000).calibrated = true ∧
    (NanosecondTimer.calibrate TimerState.init 0 100000000).tsc_frequency_ns = 0 := by
  constructor
  · rfl
  · simp [NanosecondTimer.calibrate, TimerState.init]

/-- C8 amended — `calibrate()` performs no validity check and no retry: on
any uncalibrated state and any observed deltas it publishes
`tsc_duration / wall_duration_ns` and sets the flag in one pass, so the
published frequency is zero exactly when the cycle delta is zero (and the
division in `now_ns()` / `tsc_to_ns()` is then by zero). -/
theorem c8_calibrate_publishes_unconditionally (st : TimerState)
    (tsc_duration : Nat) (wall_duration_ns : Int)
    (h : st.calibrated = false) :
    (NanosecondTimer.calibrate st tsc_duration wall_duration_ns).calibrated = true ∧
    (NanosecondTimer.calibrate st tsc_duration wall_duration_ns).tsc_frequency_ns
      = (tsc_duration : ℚ) / (wall_duration_ns : ℚ) := by
  simp [NanosecondTimer.calibrate, h]

/-- C8 witness — the amended behaviour at a concrete input: an uncalibrated
timer observing 250 cycles over 100 ns publishes frequency 250/100 and sets
the flag. -/
theorem c8_calibrate_publishes_unconditionally_witness :
    (NanosecondTimer.calibrate TimerState.init 250 100).calibrated = true ∧
    (NanosecondTimer.calibrate TimerState.init 250 100).tsc_frequency_ns
      = ((250 : Nat) : ℚ) / (((100 : Int)) : ℚ) :=
  c8_calibrate_publishes_unconditionally TimerState.init 250 100 rfl

/-- C9 counterexample — a first `start()` on a fresh dashboard leaves it
running with a joinable reporter thread; a second `start()` in that state is
not a no-op: `reporter_thread_ = std::thread(...)` move-assigns onto a
still-joinable thread, which calls `std::terminate()`. -/
theorem c9_second_start_terminates :
    PerformanceDashboard.start DashboardState.init = StartResult.ok ⟨true, true⟩ ∧
    PerformanceDashboard.start ⟨true, true⟩ = StartResult.terminated := by
  decide

/-- C9 amended — `start()` is unguarded: whenever the reporter thread is
still joinable (the running dashboard), `start()` terminates the program
instead of being a no-op; on a dashboard with no joinable reporter thread it
starts normally, and strict `stop()`-then-`start()` alternation is safe
because `stop()` joins the thread. -/
theorem c9_start_unguarded (st : DashboardState) :
    (st.reporter_joinable = true →
      PerformanceDashboard.start st = StartResult.terminated) ∧
    (st.reporter_joinable = false →
      PerformanceDashboard.start st = StartResult.ok ⟨true, true⟩) ∧
    PerformanceDashboard.start (PerformanceDashboard.stop st)
      = StartResult.ok ⟨true, true⟩ := by
  refine ⟨fun h => ?_, fun h => ?_, ?_⟩ <;>
    simp [PerformanceDashboard.start, PerformanceDashboard.stop, *]

/-- C9 witness — the amended behaviour at concrete states: `start()` on the
running state terminates, and on the fresh state succeeds. -/
theorem c9_start_unguarded_witness :
    PerformanceDashboard.start ⟨true, true⟩ = StartResult.terminated ∧
    PerformanceDashboard.start ⟨false, false⟩ = StartResult.ok ⟨true, true⟩ :=
  ⟨(c9_start_unguarded ⟨true, true⟩).1 rfl, (c9_start_unguarded ⟨false, false⟩).2.1 rfl⟩

/-- The min/max scans of `get_min_latency` / `get_max_latency` leave the
accumulator untouched on every bucket whose `count_` is 0. -/
theorem foldl_skip_zero_count (g : Nat → LatencyBucket → Nat) (bs : List LatencyBucket)
    (acc : Nat) (h : ∀ b ∈ bs, b.count = 0) :
    bs.foldl (fun a b => if b.count > 0 then g a b else a) acc = acc := by
  induction bs generalizing acc with
  | nil => rfl
  | cons b rest ih =>
    have hb : b.count = 0 := h b (List.mem_cons_self b rest)
    have hrest : ∀ x ∈ rest, x.count = 0 := fun x hx => h x (List.mem_cons_of_mem b hx)
    rw [List.foldl_cons]
    have hstep : (if b.count > 0 then g acc b else acc) = acc := by simp [hb]
    rw [hstep, ih acc hrest]

/-- C10 — empty-tracker observers: on the freshly constructed tracker and on
any tracker just `reset`, `get_min_latency`, `get_max_latency`,
`get_average_latency` and `get_percentile_latency(p)` all return 0 (the
internal `UINT64_MAX` min sentinel is translated to 0), and in general the
min/max scans skip every bucket whose count is 0. -/
theorem c10_empty_tracker_observers :
    LatencyTracker.new.get_min_latency = 0 ∧
    LatencyTracker.new.get_max_latency = 0 ∧
    LatencyTracker.new.get_average_latency = 0 ∧
    (∀ p : ℚ, LatencyTracker.new.get_percentile_latency p = 0) ∧
    (∀ t : LatencyTracker,
      t.reset.get_min_latency = 0 ∧
      t.reset.get_max_latency = 0 ∧
      t.reset.get_average_latency = 0 ∧
      ∀ p : ℚ, t.reset.get_percentile_latency p = 0) ∧
    (∀ t : LatencyTracker, (∀ b ∈ t.buckets, b.count = 0) →
      t.get_min_latency = 0 ∧ t.get_max_latency = 0) := by
  have hzero : ∀ t : LatencyTracker, (∀ b ∈ t.buckets, b.count = 0) →
      t.get_min_latency = 0 ∧ t.get_max_latency = 0 := by
    intro t h
    unfold LatencyTracker.get_min_latency LatencyTracker.get_max_latency
    rw [foldl_skip_zero_count _ _ _ h, foldl_skip_zero_count _ _ _ h]
    simp
  have hnew : ∀ b ∈ LatencyTracker.new.buckets, b.count = 0 := by
    intro b hb
    have : b = LatencyBucket.init := List.eq_of_mem_replicate hb
    simp [this, LatencyBucket.init]
  have hreset : ∀ t : LatencyTracker, ∀ b ∈ t.reset.buckets, b.count = 0 := by
    intro t b hb
    rcases List.mem_map.mp hb with ⟨x, _, hx⟩
    simp [← hx, LatencyBucket.init]
  refine ⟨(hzero _ hnew).1, (hzero _ hnew).2, rfl, fun p => rfl, fun t => ?_, hzero⟩
  exact ⟨(hzero _ (hreset t)).1, (hzero _ (hreset t)).2, rfl, fun p => rfl⟩

/-- C10 witness — the observers at a concrete empty tracker: the fresh
tracker, the reset of a tracker that had recorded 500 ns, and a tracker whose
only bucket has count 0. -/
theorem c10_empty_tracker_observers_witness :
    (LatencyTracker.recordAll LatencyTracker.new [500]).reset.get_min_latency = 0 ∧
    LatencyTracker.new.get_percentile_latency 99 = 0 ∧
    ((⟨[LatencyBucket.init], 0, 0⟩ : LatencyTracker).get_min_latency = 0 ∧
      (⟨[LatencyBucket.init], 0, 0⟩ : LatencyTracker).get_max_latency = 0) :=
  ⟨(c10_empty_tracker_observers.2.2.2.2.1 (LatencyTracker.recordAll LatencyTracker.new [500])).1,
   c10_empty_tracker_observers.2.2.2.1 99,
   c10_empty_tracker_observers.2.2.2.2.2 ⟨[LatencyBucket.init], 0, 0⟩ (by decide)⟩

/-- Closed form of `n` producer writes on a fresh queue: the store is
untouched by `updateWriteIndex`, the write position is `n`, the read
position 0. -/
theorem LFQueue.writeN_new (α : Type) (num_elems : Nat) (init : α) (n : Nat) :
    (LFQueue.new α num_elems init).writeN n
      = ⟨List.replicate num_elems init, n, 0⟩ := by
  induction n with
  | zero => rfl
  | succ n ih => simp [LFQueue.writeN, ih, LFQueue.updateWriteIndex]

/-- Unfolding of `getNextToWriteTo` on an explicit state. -/
theorem LFQueue.getNextToWriteTo_mk (store : List α) (w r : Nat) :
    (⟨store, w, r⟩ : LFQueue α).getNextToWriteTo
      = if (w + 1) &&& (store.length - 1) = r then none else some w := rfl

/-- Unfolding of `getNextToRead` on an explicit state. -/
theorem LFQueue.getNextToRead_mk (store : List α) (w r : Nat) :
    (⟨store, w, r⟩ : LFQueue α).getNextToRead
      = if r = w then none else some r := rfl

/-- Unfolding of `updateReadIndex` on an explicit state. -/
theorem LFQueue.updateReadIndex_mk (store : List α) (w r : Nat) :
    (⟨store, w, r⟩ : LFQueue α).updateReadIndex
      = if r = w then ((⟨store, w, r⟩ : LFQueue α), false)
        else ((⟨store, w, r + 1⟩ : LFQueue α), true) := by
  unfold LFQueue.updateReadIndex
  split <;> rfl

/-- C4 — SPSC ring capacity invariant, for any power-of-two capacity
`N = 2 ^ k` (`k ≥ 1`): `size()` — the occupancy `(write_pos - read_pos)
& (N - 1)` — is below `N` on every state over an `N`-slot store; from a fresh
queue each of the first `N - 1` writes is offered a slot (at the in-bounds
index equal to the write position), the `N`-th `getNextToWriteTo` returns
`nullptr` (full); and after one successful read the next `getNextToWriteTo`
succeeds again, at the in-bounds slot `N - 1`. -/
theorem c4_capacity_invariant (k : Nat) (hk : 1 ≤ k) (init : Nat) :
    (∀ q : LFQueue Nat, q.store.length = 2 ^ k → q.size < 2 ^ k) ∧
    (∀ i, i < 2 ^ k - 1 →
      ((LFQueue.new Nat (2 ^ k) init).writeN i).getNextToWriteTo = some i ∧ i < 2 ^ k) ∧
    ((LFQueue.new Nat (2 ^ k) init).writeN (2 ^ k - 1)).getNextToWriteTo = none ∧
    ((LFQueue.new Nat (2 ^ k) init).writeN (2 ^ k - 1)).getNextToRead = some 0 ∧
    ((LFQueue.new Nat (2 ^ k) init).writeN (2 ^ k - 1)).updateReadIndex.2 = true ∧
    (((LFQueue.new Nat (2 ^ k) init).writeN (2 ^ k - 1)).updateReadIndex.1).getNextToWriteTo
      = some (2 ^ k - 1) := by
  have hpos : 0 < 2 ^ k := Nat.pos_pow_of_pos k (by decide)
  have h2 : 2 ≤ 2 ^ k := by
    calc 2 = 2 ^ 1 := rfl
    _ ≤ 2 ^ k := Nat.pow_le_pow_right (by decide) hk
  have h0 : ¬ (0 : Nat) = 2 ^ k - 1 := by omega
  have hsub : 2 ^ k - 1 + 1 = 2 ^ k := by omega
  have hfull : (2 ^ k - 1 + 1) % 2 ^ k = 0 := by rw [hsub, Nat.mod_self]
  refine ⟨?_, ?_, ?_, ?_, ?_, ?_⟩
  · intro q hq
    unfold LFQueue.size
    rw [hq, Nat.and_pow_two_sub_one_eq_mod]
    exact Nat.mod_lt _ hpos
  · intro i hi
    have hlt : i + 1 < 2 ^ k := by omega
    refine ⟨?_, by omega⟩
    rw [LFQueue.writeN_new, LFQueue.getNextToWriteTo_mk, List.length_replicate,
      Nat.and_pow_two_sub_one_eq_mod, Nat.mod_eq_of_lt hlt,
      if_neg (Nat.succ_ne_zero i)]
  · rw [LFQueue.writeN_new, LFQueue.getNextToWriteTo_mk, List.length_replicate,
      Nat.and_pow_two_sub_one_eq_mod, hfull, if_pos rfl]
  · rw [LFQueue.writeN_new, LFQueue.getNextToRead_mk, if_neg h0]
  · rw [LFQueue.writeN_new, LFQueue.updateReadIndex_mk, if_neg h0]
  · rw [LFQueue.writeN_new, LFQueue.updateReadIndex_mk, if_neg h0]
    rw [LFQueue.getNextToWriteTo_mk, List.length_replicate,
      Nat.and_pow_two_sub_one_eq_mod, hfull,
      if_neg (by decide : ¬ (0 : Nat) = 1)]

/-- C4 witness — the scenario of S2 at `N = 2 ^ 2 = 4`: a state of occupancy
below 4, the third write offered slot 2, the fourth `getNextToWriteTo`
returning `nullptr`, and success again at slot 3 after one read. -/
theorem c4_capacity_invariant_witness :
    ((⟨List.replicate 4 0, 7, 3⟩ : LFQueue Nat).size < 2 ^ 2) ∧
    ((LFQueue.new Nat (2 ^ 2) 0).writeN 2).getNextToWriteTo = some 2 ∧
    ((LFQueue.new Nat (2 ^ 2) 0).writeN (2 ^ 2 - 1)).getNextToWriteTo = none ∧
    (((LFQueue.new Nat (2 ^ 2) 0).writeN (2 ^ 2 - 1)).updateReadIndex.1).getNextToWriteTo
      = some (2 ^ 2 - 1) :=
  ⟨(c4_capacity_invariant 2 (by decide) 0).1 ⟨List.replicate 4 0, 7, 3⟩ (by decide),
   ((c4_capacity_invariant 2 (by decide) 0).2.1 2 (by decide)).1,
   (c4_capacity_invariant 2 (by decide) 0).2.2.1,
   (c4_capacity_invariant 2 (by decide) 0).2.2.2.2.2⟩

/-- Every value is routed to a bucket index below `NUM_BUCKETS`. -/
theorem bucketIdx_lt (latency_ns : Nat) : bucketIdx latency_ns < NUM_BUCKETS := by
  have h : min (latency_ns / 1000) 999 ≤ 999 := Nat.min_le_right _ _
  show min (latency_ns / 1000) 999 < 1000
  omega

/-- Reading a mapped range at an in-range index. -/
theorem getD_map_range (f : Nat → β) (n j : Nat) (d : β) (hj : j < n) :
    ((List.range n).map f).getD j d = f j := by
  have hl : j < ((List.range n).map f).length := by simpa using hj
  rw [List.getD_eq_getElem?_getD, List.getElem?_eq_getElem hl]
  simp

/-- Setting an in-range index of a mapped range is mapping the pointwise
update. -/
theorem set_map_range (f : Nat → β) (n j : Nat) (x : β) :
    ((List.range n).map f).set j x
      = (List.range n).map (fun i => if i = j then x else f i) := by
  apply List.ext_getElem
  · simp
  · intro i h1 h2
    simp only [List.getElem_set, List.getElem_map, List.getElem_range]
    by_cases hij : j = i
    · simp [hij]
    · rw [if_neg hij, if_neg (fun h => hij h.symm)]

/-- Appending one value to the history updates exactly its own bucket, by
`LatencyBucket.record`. -/
theorem bucketOf_append_same (vs : List Nat) (a : Nat) :
    bucketOf (vs ++ [a]) (bucketIdx a) = (bucketOf vs (bucketIdx a)).record a := by
  unfold bucketOf LatencyBucket.record
  have hp : (fun v => decide (bucketIdx v = bucketIdx a)) a = true := by simp
  simp only [List.countP_append, List.filter_append, List.foldl_append, List.sum_append,
    List.countP_cons, List.countP_nil, List.filter_cons, List.filter_nil, hp, if_true,
    List.sum_cons, List.sum_nil, List.foldl_cons, List.foldl_nil, LatencyBucket.mk.injEq]
  refine ⟨?_, ?_, rfl, rfl⟩
  · rw [Nat.mod_add_mod]
    norm_num
  · rw [Nat.mod_add_mod]
    norm_num

/-- Appending one value leaves every other bucket unchanged. -/
theorem bucketOf_append_other (vs : List Nat) (a b : Nat) (h : b ≠ bucketIdx a) :
    bucketOf (vs ++ [a]) b = bucketOf vs b := by
  unfold bucketOf
  have hp : (fun v => decide (bucketIdx v = b)) a = false := by
    simp
    omega
  simp only [List.countP_append, List.filter_append, List.foldl_append, List.sum_append,
    List.countP_cons, List.countP_nil, List.filter_cons, List.filter_nil, hp,
    List.sum_cons, List.sum_nil, List.foldl_cons, List.foldl_nil, Bool.false_eq_true,
    if_false, LatencyBucket.mk.injEq]
  norm_num

set_option maxRecDepth 100000 in
/-- Closed form of the tracker reached by recording `vs` on a fresh tracker:
bucket `b` holds exactly the statistics of the values routed to `b`, and the
global counters hold the length and sum of `vs` (all modulo `2 ^ 64`). -/
theorem recordAll_new_closed (vs : List Nat) :
    LatencyTracker.recordAll LatencyTracker.new vs
      = ⟨(List.range NUM_BUCKETS).map (bucketOf vs), vs.length % U64, vs.sum % U64⟩ := by
  induction vs using List.reverseRecOn with
  | nil => decide
  | append_singleton l a ih =>
    have step : LatencyTracker.recordAll LatencyTracker.new (l ++ [a])
        = (LatencyTracker.recordAll LatencyTracker.new l).record_latency a := by
      unfold LatencyTracker.recordAll
      rw [List.foldl_append]
      rfl
    rw [step, ih]
    unfold LatencyTracker.record_latency
    simp only [LatencyTracker.mk.injEq]
    refine ⟨?_, ?_, ?_⟩
    · rw [getD_map_range _ _ _ _ (bucketIdx_lt a), set_map_range]
      apply List.map_congr_left
      intro b hb
      by_cases hba : b = bucketIdx a
      · rw [if_pos hba, hba, bucketOf_append_same]
      · rw [if_neg hba, bucketOf_append_other l a b hba]
    · rw [Nat.mod_add_mod, List.length_append]
      norm_num
    · rw [Nat.mod_add_mod, List.sum_append]
      norm_num

/-- Sums over a list of pointwise sums split. -/
theorem list_sum_map_add (l : List Nat) (f g : Nat → Nat) :
    (l.map (fun x => f x + g x)).sum = (l.map f).sum + (l.map g).sum := by
  induction l with
  | nil => rfl
  | cons x xs ih =>
    simp only [List.map_cons, List.sum_cons, ih]
    omega

/-- Summing an indicator supported at the single in-range index `j`. -/
theorem sum_map_ite_single (n j c : Nat) (hj : j < n) :
    ((List.range n).map (fun i => if j = i then c else 0)).sum = c := by
  induction n with
  | zero => omega
  | succ n ih =>
    rw [List.range_succ, List.map_append, List.sum_append]
    by_cases h : j = n
    · subst h
      have hz : ((List.range j).map (fun i => if j = i then c else 0)).sum = 0 := by
        apply List.sum_eq_zero
        intro x hx
        rcases List.mem_map.mp hx with ⟨i, hi, hxe⟩
        have : i < j := List.mem_range.mp hi
        rw [← hxe, if_neg (by omega)]
      simp [hz]
    · have hj2 : j < n := by omega
      simp [ih hj2, h]

/-- Partition of the length over the buckets: summing, over all bucket
indices, the number of values routed to each bucket gives the number of
values. -/
theorem countP_partition (vs : List Nat) :
    ((List.range NUM_BUCKETS).map (fun b => vs.countP (fun v => bucketIdx v = b))).sum
      = vs.length := by
  induction vs with
  | nil => simp
  | cons v rest ih =>
    have hsplit : (fun b => (v :: rest).countP (fun x => bucketIdx x = b))
        = fun b => rest.countP (fun x => bucketIdx x = b)
            + (if bucketIdx v = b then 1 else 0) := by
      funext b
      rw [List.countP_cons]
      by_cases h : bucketIdx v = b
      · simp [h]
      · simp [h]
    rw [hsplit, list_sum_map_add, ih,
      sum_map_ite_single NUM_BUCKETS (bucketIdx v) 1 (bucketIdx_lt v)]
    simp

/-- Partition of the total over the buckets: summing, over all bucket
indices, the values routed to each bucket gives the sum of all values. -/
theorem sum_filter_partition (vs : List Nat) :
    ((List.range NUM_BUCKETS).map
        (fun b => (vs.filter (fun v => bucketIdx v = b)).sum)).sum
      = vs.sum := by
  induction vs with
  | nil => simp
  | cons v rest ih =>
    have hsplit : (fun b => ((v :: rest).filter (fun x => bucketIdx x = b)).sum)
        = fun b => (rest.filter (fun x => bucketIdx x = b)).sum
            + (if bucketIdx v = b then v else 0) := by
      funext b
      rw [List.filter_cons]
      by_cases h : bucketIdx v = b
      · simp [h]
        omega
      · simp [h]
    rw [hsplit, list_sum_map_add, ih,
      sum_map_ite_single NUM_BUCKETS (bucketIdx v) v (bucketIdx_lt v)]
    simp
    omega

set_option maxRecDepth 1000000 in
/-- C5 — histogram conservation and bucketing: after recording `vs` on a
fresh tracker (with fewer than `2 ^ 64` operations and total below `2 ^ 64`,
where `uint64_t` arithmetic is exact), `get_total_operations()` is the number
of values, the per-bucket counts sum to it, the per-bucket sums sum to the
total of the values, each bucket's count is exactly the number of values `v`
with `min(v / 1000, 999)` equal to its index, and the average is the integer
quotient of the total by the count. -/
theorem c5_histogram_conservation (vs : List Nat)
    (hops : vs.length < U64) (hsum : vs.sum < U64) :
    (LatencyTracker.recordAll LatencyTracker.new vs).get_total_operations = vs.length ∧
    ((LatencyTracker.recordAll LatencyTracker.new vs).buckets.map
        (fun b => b.count)).sum = vs.length ∧
    ((LatencyTracker.recordAll LatencyTracker.new vs).buckets.map
        (fun b => b.sum)).sum = vs.sum ∧
    (∀ b, b < NUM_BUCKETS →
      ((LatencyTracker.recordAll LatencyTracker.new vs).buckets.getD b
          LatencyBucket.init).count = vs.countP (fun v => bucketIdx v = b)) ∧
    (vs ≠ [] →
      (LatencyTracker.recordAll LatencyTracker.new vs).get_average_latency
        = vs.sum / vs.length) := by
  rw [recordAll_new_closed vs]
  refine ⟨?_, ?_, ?_, ?_, ?_⟩
  · show vs.length % U64 = vs.length
    exact Nat.mod_eq_of_lt hops
  · show (((List.range NUM_BUCKETS).map (bucketOf vs)).map (fun b => b.count)).sum
      = vs.length
    rw [List.map_map]
    have hcong : ∀ i ∈ List.range NUM_BUCKETS,
        ((fun b => b.count) ∘ bucketOf vs) i
          = vs.countP (fun v => bucketIdx v = i) := by
      intro i _
      show (vs.countP (fun v => bucketIdx v = i)) % U64 = _
      exact Nat.mod_eq_of_lt (Nat.lt_of_le_of_lt (List.countP_le_length _) hops)
    rw [List.map_congr_left hcong, countP_partition]
  · show (((List.range NUM_BUCKETS).map (bucketOf vs)).map (fun b => b.sum)).sum
      = vs.sum
    rw [List.map_map]
    have hcong : ∀ i ∈ List.range NUM_BUCKETS,
        ((fun b => b.sum) ∘ bucketOf vs) i
          = (vs.filter (fun v => bucketIdx v = i)).sum := by
      intro i _
      show ((vs.filter (fun v => bucketIdx v = i)).sum) % U64 = _
      have hle : (vs.filter (fun v => bucketIdx v = i)).sum ≤ vs.sum :=
        List.Sublist.sum_le_sum (List.filter_sublist vs) (fun a _ => Nat.zero_le a)
      exact Nat.mod_eq_of_lt (Nat.lt_of_le_of_lt hle hsum)
    rw [List.map_congr_left hcong, sum_filter_partition]
  · intro b hb
    show (((List.range NUM_BUCKETS).map (bucketOf vs)).getD b LatencyBucket.init).count
      = vs.countP (fun v => bucketIdx v = b)
    rw [getD_map_range _ _ _ _ hb]
    show (vs.countP (fun v => bucketIdx v = b)) % U64 = _
    exact Nat.mod_eq_of_lt (Nat.lt_of_le_of_lt (List.countP_le_length _) hops)
  · intro hne
    have hlen : 0 < vs.length := List.length_pos.mpr hne
    show (if 0 < vs.length % U64 then (vs.sum % U64) / (vs.length % U64) else 0)
      = vs.sum / vs.length
    rw [Nat.mod_eq_of_lt hops, Nat.mod_eq_of_lt hsum, if_pos hlen]

set_option maxRecDepth 1000000 in
/-- C5 witness — the S4 scenario: recording
`[500, 1500, 2500, 999999, 1000001]` gives 5 operations, bucket counts 1 at
indices 0, 1 and 2 and 2 at index 999, count total 5, sum total 2004500, and
average `2004500 / 5 = 400900`. -/
theorem c5_histogram_conservation_witness :
    (LatencyTracker.recordAll LatencyTracker.new
        [500, 1500, 2500, 999999, 1000001]).get_total_operations = 5 ∧
    ((LatencyTracker.recordAll LatencyTracker.new
        [500, 1500, 2500, 999999, 1000001]).buckets.map (fun b => b.count)).sum = 5 ∧
    ((LatencyTracker.recordAll LatencyTracker.new
        [500, 1500, 2500, 999999, 1000001]).buckets.map (fun b => b.sum)).sum = 2004500 ∧
    ((LatencyTracker.recordAll LatencyTracker.new
        [500, 1500, 2500, 999999, 1000001]).buckets.getD 0 LatencyBucket.init).count = 1 ∧
    ((LatencyTracker.recordAll LatencyTracker.new
        [500, 1500, 2500, 999999, 1000001]).buckets.getD 1 LatencyBucket.init).count = 1 ∧
    ((LatencyTracker.recordAll LatencyTracker.new
        [500, 1500, 2500, 999999, 1000001]).buckets.getD 2 LatencyBucket.init).count = 1 ∧
    ((LatencyTracker.recordAll LatencyTracker.new
        [500, 1500, 2500, 999999, 1000001]).buckets.getD 999 LatencyBucket.init).count = 2 ∧
    (LatencyTracker.recordAll LatencyTracker.new
        [500, 1500, 2500, 999999, 1000001]).get_average_latency = 400900 := by
  have h := c5_histogram_conservation [500, 1500, 2500, 999999, 1000001]
    (by decide) (by decide)
  exact ⟨h.1.trans (by decide), h.2.1.trans (by decide), h.2.2.1.trans (by decide),
    (h.2.2.2.1 0 (by decide)).trans (by decide),
    (h.2.2.2.1 1 (by decide)).trans (by decide),
    (h.2.2.2.1 2 (by decide)).trans (by decide),
    (h.2.2.2.1 999 (by decide)).trans (by decide),
    (h.2.2.2.2 (by decide)).trans (by decide)⟩

/-- The cumulative count up to index 0 of a non-empty bucket list. -/
theorem bucketCumCount_cons_zero (b : LatencyBucket) (rest : List LatencyBucket) :
    bucketCumCount (b :: rest) 0 = b.count := by
  simp [bucketCumCount]

/-- The cumulative count steps by the head bucket's count. -/
theorem bucketCumCount_cons_succ (b : LatencyBucket) (rest : List LatencyBucket)
    (j : Nat) :
    bucketCumCount (b :: rest) (j + 1) = b.count + bucketCumCount rest j := by
  simp [bucketCumCount]

/-- The bucket walk of `get_percentile_latency` returns (the lower edge of)
the first bucket index whose cumulative count reaches the target, and the
last bucket's lower edge when none does. -/
theorem percentileWalk_eq_find (bs : List LatencyBucket) (i acc target : Nat) :
    percentileWalk bs i acc target
      = match (List.range bs.length).find?
            (fun j => decide (target ≤ acc + bucketCumCount bs j)) with
        | some j => (i + j) * 1000
        | none => (NUM_BUCKETS - 1) * 1000 := by
  induction bs generalizing i acc with
  | nil => rfl
  | cons b rest ih =>
    rw [List.length_cons, List.range_succ_eq_map, List.find?_cons]
    by_cases h0 : target ≤ acc + b.count
    · have hp : decide (target ≤ acc + bucketCumCount (b :: rest) 0) = true := by
        simp [bucketCumCount_cons_zero, h0]
      rw [hp]
      unfold percentileWalk
      simp [h0]
    · have hp : decide (target ≤ acc + bucketCumCount (b :: rest) 0) = false := by
        simp [bucketCumCount_cons_zero, h0]
      rw [hp, List.find?_map]
      have hcomp : ((fun j => decide (target ≤ acc + bucketCumCount (b :: rest) j)) ∘ Nat.succ)
          = fun j => decide (target ≤ acc + b.count + bucketCumCount rest j) := by
        funext j
        simp only [Function.comp_apply, bucketCumCount_cons_succ, Nat.add_assoc]
      rw [hcomp]
      unfold percentileWalk
      rw [if_neg h0, ih (i + 1) (acc + b.count)]
      cases hf : (List.range rest.length).find?
          (fun j => decide (target ≤ acc + b.count + bucketCumCount rest j)) with
      | none => simp
      | some j =>
        simp only [Option.map_some]
        show (i + 1 + j) * 1000 = (i + Nat.succ j) * 1000
        omega

set_option maxRecDepth 1000000 in
/-- C6 — percentile definition: `get_percentile_latency(p)` equals the
spec-side description (0 on an empty histogram, otherwise 1000 times the
first bucket index whose cumulative count reaches
`target = ⌊total_ops · p / 100⌋`, and 999000 when no bucket reaches it), and
concretely after 1000 records of 1500 ns the 50th and 99th percentiles are
1000 and the average is 1500. -/
theorem c6_percentile_definition :
    (∀ (t : LatencyTracker) (p : ℚ),
      t.get_percentile_latency p = percentileSpec t p) ∧
    (LatencyTracker.recordAll LatencyTracker.new
        (List.replicate 1000 1500)).get_percentile_latency 50 = 1000 ∧
    (LatencyTracker.recordAll LatencyTracker.new
        (List.replicate 1000 1500)).get_percentile_latency 99 = 1000 ∧
    (LatencyTracker.recordAll LatencyTracker.new
        (List.replicate 1000 1500)).get_average_latency = 1500 := by
  refine ⟨?_, ?_, ?_, by decide⟩
  case refine_2 =>
    have hops : (LatencyTracker.recordAll LatencyTracker.new
        (List.replicate 1000 1500)).total_operations = 1000 := by decide
    unfold LatencyTracker.get_percentile_latency
    rw [hops, if_neg (by decide : ¬ (1000 : Nat) = 0)]
    have htarget : ((((1000 : Nat) : ℚ) * 50) / 100).floor.toNat = 500 := by
      have hq : (((1000 : Nat) : ℚ) * 50) / 100 = (500 : ℚ) := by norm_num
      rw [hq, Rat.floor_def']
      norm_num
      rfl
    rw [htarget]
    decide
  case refine_3 =>
    have hops : (LatencyTracker.recordAll LatencyTracker.new
        (List.replicate 1000 1500)).total_operations = 1000 := by decide
    unfold LatencyTracker.get_percentile_latency
    rw [hops, if_neg (by decide : ¬ (1000 : Nat) = 0)]
    have htarget : ((((1000 : Nat) : ℚ) * 99) / 100).floor.toNat = 990 := by
      have hq : (((1000 : Nat) : ℚ) * 99) / 100 = (990 : ℚ) := by norm_num
      rw [hq, Rat.floor_def']
      norm_num
      rfl
    rw [htarget]
    decide
  intro t p
  unfold LatencyTracker.get_percentile_latency percentileSpec
  by_cases h : t.total_operations = 0
  · rw [if_pos h, if_pos h]
  · simp only [if_neg h]
    rw [percentileWalk_eq_find]
    have hpred : (fun j => decide ((((t.total_operations : ℚ) * p) / 100).floor.toNat
          ≤ 0 + bucketCumCount t.buckets j))
        = fun j => decide ((((t.total_operations : ℚ) * p) / 100).floor.toNat
          ≤ bucketCumCount t.buckets j) := by
      funext j
      rw [Nat.zero_add]
    rw [hpred]
    cases hf : (List.range t.buckets.length).find?
        (fun j => decide ((((t.total_operations : ℚ) * p) / 100).floor.toNat
          ≤ bucketCumCount t.buckets j)) with
    | none => rfl
    | some j =>
      show (0 + j) * 1000 = j * 1000
      rw [Nat.zero_add]

/-- `Rat.floor` is monotone. -/
theorem rat_floor_mono {a b : ℚ} (h : a ≤ b) : a.floor ≤ b.floor :=
  Rat.le_floor.mpr (le_trans (Rat.le_floor.mp (le_refl a.floor)) h)

/-- A lower bound on the bucket walk: starting at index `i` (with at most
`NUM_BUCKETS` buckets in total), the result is at least `(i - 1) * 1000`. -/
theorem percentileWalk_lower_bound (bs : List LatencyBucket) :
    ∀ (i acc target : Nat), i + bs.length ≤ NUM_BUCKETS →
      (i - 1) * 1000 ≤ percentileWalk bs i acc target := by
  induction bs with
  | nil =>
    intro i acc target h
    show (i - 1) * 1000 ≤ (NUM_BUCKETS - 1) * 1000
    have : i - 1 ≤ NUM_BUCKETS - 1 := by
      simp only [List.length_nil] at h
      omega
    exact Nat.mul_le_mul_right 1000 this
  | cons b rest ih =>
    intro i acc target h
    unfold percentileWalk
    by_cases hcross : target ≤ acc + b.count
    · rw [if_pos hcross]
      exact Nat.mul_le_mul_right 1000 (Nat.sub_le i 1)
    · rw [if_neg hcross]
      have h2 : (i + 1) + rest.length ≤ NUM_BUCKETS := by
        simp only [List.length_cons] at h
        omega
      have := ih (i + 1) (acc + b.count) target h2
      calc (i - 1) * 1000 ≤ (i + 1 - 1) * 1000 :=
            Nat.mul_le_mul_right 1000 (by omega)
        _ ≤ percentileWalk rest (i + 1) (acc + b.count) target := this

/-- The bucket walk is monotone in the target operation count. -/
theorem percentileWalk_mono (bs : List LatencyBucket) :
    ∀ (i acc t1 t2 : Nat), t1 ≤ t2 → i + bs.length ≤ NUM_BUCKETS →
      percentileWalk bs i acc t1 ≤ percentileWalk bs i acc t2 := by
  induction bs with
  | nil =>
    intro i acc t1 t2 h12 h
    exact le_refl _
  | cons b rest ih =>
    intro i acc t1 t2 h12 h
    have h2 : (i + 1) + rest.length ≤ NUM_BUCKETS := by
      simp only [List.length_cons] at h
      omega
    unfold percentileWalk
    by_cases hc2 : t2 ≤ acc + b.count
    · rw [if_pos hc2, if_pos (le_trans h12 hc2)]
    · rw [if_neg hc2]
      by_cases hc1 : t1 ≤ acc + b.count
      · rw [if_pos hc1]
        have := percentileWalk_lower_bound rest (i + 1) (acc + b.count) t2 h2
        calc i * 1000 = (i + 1 - 1) * 1000 := by omega
          _ ≤ percentileWalk rest (i + 1) (acc + b.count) t2 := this
      · rw [if_neg hc1]
        exact ih (i + 1) (acc + b.count) t1 t2 h12 h2

/-- C7 — percentile monotonicity: on any fixed tracker state (with the
constructed 1000-bucket histogram) and percentile arguments
`0 ≤ p₁ ≤ p₂ ≤ 100`, `get_percentile_latency` is monotone. -/
theorem c7_percentile_monotone (t : LatencyTracker) (p1 p2 : ℚ)
    (hlen : t.buckets.length = NUM_BUCKETS)
    (hp0 : 0 ≤ p1) (hp12 : p1 ≤ p2) (hp100 : p2 ≤ 100) :
    t.get_percentile_latency p1 ≤ t.get_percentile_latency p2 := by
  unfold LatencyTracker.get_percentile_latency
  by_cases h : t.total_operations = 0
  · simp [h]
  · simp only [if_neg h]
    apply percentileWalk_mono
    · apply Int.toNat_le_toNat
      apply rat_floor_mono
      have hmul : (t.total_operations : ℚ) * p1 ≤ (t.total_operations : ℚ) * p2 :=
        mul_le_mul_of_nonneg_left hp12 (Nat.cast_nonneg _)
      exact (div_le_div_iff_of_pos_right (by norm_num : (0 : ℚ) < 100)).mpr hmul
    · rw [hlen]
      omega

set_option maxRecDepth 1000000 in
/-- C7 witness — monotonicity at a concrete input: on the tracker holding a
single 1500 ns record, the 50th percentile is at most the 99th. -/
theorem c7_percentile_monotone_witness :
    (LatencyTracker.recordAll LatencyTracker.new [1500]).get_percentile_latency 50
      ≤ (LatencyTracker.recordAll LatencyTracker.new [1500]).get_percentile_latency 99 :=
  c7_percentile_monotone (LatencyTracker.recordAll LatencyTracker.new [1500]) 50 99
    (by decide) (by norm_num) (by norm_num) (by norm_num)
